import Mathlib

/-!
Verification of the menu-browser application (`src/app.js`).

The file shallowly embeds the data model and the operations of `app.js`:
the catalog loader (`loadMenuData`), the derivation rules (`isVegetarian`,
`getSpiceLevel`), the filter/search/sort pipeline (`applyFilters`,
`handleSearch`, `handleSort`, `sortItems`, `resetFilters`) as a state
machine over the script's module-level variables, and the scroll-sync
active-category selection loop (`setupLiquidGlassScrollTracking`).

JavaScript strings are modelled as Lean `String`; `String.prototype.includes`
is substring containment on the underlying character lists,
`String.prototype.toLowerCase` is modelled character-wise for the ASCII
range, and `String.prototype.trim` strips leading/trailing whitespace
characters.  JavaScript numbers used as prices and coordinates are
modelled as rationals.  `Array.prototype.sort` (stable per the ECMAScript
specification) is modelled by `List.mergeSort`.
-/

/-- Model of `String.prototype.toLowerCase` on one character (ASCII range:
uppercase letters are shifted to lowercase, everything else unchanged). -/
def lowerChar (c : Char) : Char :=
  if 'A' ≤ c ∧ c ≤ 'Z' then Char.ofNat (c.toNat + 32) else c

/-- Model of `String.prototype.toLowerCase`. -/
def jsToLower (s : String) : String :=
  ⟨s.data.map lowerChar⟩

/-- Whitespace characters stripped by `String.prototype.trim`
(ASCII whitespace). -/
def isWsChar (c : Char) : Bool :=
  c = ' ' || c = '\t' || c = '\n' || c = '\r'

/-- Model of `String.prototype.trim`: drop leading and trailing
whitespace characters. -/
def jsTrim (s : String) : String :=
  ⟨((s.data.dropWhile isWsChar).reverse.dropWhile isWsChar).reverse⟩

/-- Model of `s.includes(sub)`: `sub` occurs contiguously inside `s`. -/
def jsIncludes (s sub : String) : Bool :=
  decide (sub.data <:+: s.data)

theorem jsIncludes_iff (s sub : String) :
    jsIncludes s sub = true ↔ sub.data <:+: s.data := by
  simp [jsIncludes]

/-- A flattened catalog entry, as built by `loadMenuData` in `app.js`. -/
structure MenuItem where
  id : Nat
  title : String
  description : String
  price : ℚ
  category : String
  img : String
  vegetarian : Bool
  spicy : Nat
deriving DecidableEq

/-- The `vegCategories` list of `isVegetarian` in `app.js`. -/
def vegCategories : List String :=
  ["Veg Appetizers", "Chaat", "Veg Tandoori", "Veg Curries",
   "Rice & Biryani", "Breads", "Extras", "Vegan Menu Categories"]

/-- The `nonVegKeywords` list of `isVegetarian` in `app.js`. -/
def nonVegKeywords : List String :=
  ["Chicken", "Lamb", "Seafood", "Fish", "Shrimp", "Non-Veg"]

/-- Function `isVegetarian(category)` from `app.js`: a non-veg keyword occurring in
the category forces `false`; otherwise the result is whether one of the
fixed vegetarian category names occurs in the category. -/
def isVegetarian (category : String) : Bool :=
  if nonVegKeywords.any (fun keyword => jsIncludes category keyword) then
    false
  else
    vegCategories.any (fun vegCat => jsIncludes category vegCat)

/-- Function `getSpiceLevel(title, description)` from `app.js`: tiers checked on the
lowercased concatenation `title + " " + description`. -/
def getSpiceLevel (title description : String) : Nat :=
  let text := jsToLower (title ++ " " ++ description)
  if jsIncludes text "vindaloo" || jsIncludes text "extra spicy" then 3
  else if jsIncludes text "chilli" || jsIncludes text "spicy" || jsIncludes text "65" then 2
  else if jsIncludes text "masala" || jsIncludes text "tandoori" || jsIncludes text "curry" then 1
  else 0

/-- The text `getSpiceLevel` scans: lowercased `title + " " + description`. -/
def spiceText (title description : String) : String :=
  jsToLower (title ++ " " ++ description)

/-- Spec-side condition for spice tier 3: the scanned text contains
"vindaloo" or "extra spicy". -/
def tier3Cond (t : String) : Prop :=
  "vindaloo".data <:+: t.data ∨ "extra spicy".data <:+: t.data

/-- Spec-side condition for spice tier 2: the scanned text contains
"chilli", "spicy" or "65". -/
def tier2Cond (t : String) : Prop :=
  "chilli".data <:+: t.data ∨ "spicy".data <:+: t.data ∨ "65".data <:+: t.data

/-- Spec-side condition for spice tier 1: the scanned text contains
"masala", "tandoori" or "curry". -/
def tier1Cond (t : String) : Prop :=
  "masala".data <:+: t.data ∨ "tandoori".data <:+: t.data ∨ "curry".data <:+: t.data

/-- Spec-side reading of `isVegetarian` (`spec.md` §4.2): no non-vegetarian
keyword occurs in the category, and one of the fixed vegetarian category
names does. -/
def isVegetarianSpec (category : String) : Prop :=
  (∀ k ∈ nonVegKeywords, ¬ k.data <:+: category.data) ∧
    (∃ v ∈ vegCategories, v.data <:+: category.data)

/-- Spec-side condition for exactly spice tier 2: tier 3 fails, tier 2 hits. -/
def exactTier2Cond (t : String) : Prop :=
  ¬ tier3Cond t ∧ tier2Cond t

/-- Spec-side condition for exactly spice tier 1: tiers 3 and 2 fail, tier 1 hits. -/
def exactTier1Cond (t : String) : Prop :=
  ¬ tier3Cond t ∧ ¬ tier2Cond t ∧ tier1Cond t

/-- Spec-side condition for spice tier 0: no tier keyword occurs. -/
def tier0Cond (t : String) : Prop :=
  ¬ tier3Cond t ∧ ¬ tier2Cond t ∧ ¬ tier1Cond t

/-- C5: `isVegetarian` returns true exactly when no non-vegetarian keyword
occurs in the category (the non-veg check takes precedence) and one of the
fixed vegetarian category names occurs; categories matching neither list
yield false. -/
theorem c5_isVegetarian_characterization (c : String) :
    isVegetarian c = true ↔ isVegetarianSpec c := by
  unfold isVegetarian isVegetarianSpec
  by_cases h : nonVegKeywords.any (fun keyword => jsIncludes c keyword) = true
  · rw [if_pos h]
    simp only [List.any_eq_true, jsIncludes_iff] at h
    obtain ⟨k, hk, hinc⟩ := h
    constructor
    · intro hf
      exact absurd hf Bool.false_ne_true
    · rintro ⟨hall, -⟩
      exact absurd hinc (hall k hk)
  · rw [if_neg h]
    simp only [List.any_eq_true, jsIncludes_iff] at h ⊢
    constructor
    · intro hex
      exact ⟨fun k hk hinc => h ⟨k, hk, hinc⟩, hex⟩
    · rintro ⟨-, hex⟩
      exact hex

/-- C5 witness: the characterization applied at the category
"Non-Veg Curries" (a non-veg keyword occurs, so the result is false even
though "Curries" resembles a vegetarian name). -/
theorem c5_isVegetarian_characterization_witness :
    isVegetarian "Non-Veg Curries" = true ↔ isVegetarianSpec "Non-Veg Curries" :=
  c5_isVegetarian_characterization "Non-Veg Curries"

/-- C6: `getSpiceLevel` never exceeds 3 and equals each level exactly under
the corresponding tier condition on the lowercased `title + " " + description`,
with tiers checked in 3 → 2 → 1 order and the first match winning. -/
theorem c6_spiceLevel_characterization (title description : String) :
    getSpiceLevel title description ≤ 3 ∧
    (getSpiceLevel title description = 3 ↔ tier3Cond (spiceText title description)) ∧
    (getSpiceLevel title description = 2 ↔ exactTier2Cond (spiceText title description)) ∧
    (getSpiceLevel title description = 1 ↔ exactTier1Cond (spiceText title description)) ∧
    (getSpiceLevel title description = 0 ↔ tier0Cond (spiceText title description)) := by
  have hdef : getSpiceLevel title description =
      (if jsIncludes (spiceText title description) "vindaloo" ||
          jsIncludes (spiceText title description) "extra spicy" then 3
       else if jsIncludes (spiceText title description) "chilli" ||
          jsIncludes (spiceText title description) "spicy" ||
          jsIncludes (spiceText title description) "65" then 2
       else if jsIncludes (spiceText title description) "masala" ||
          jsIncludes (spiceText title description) "tandoori" ||
          jsIncludes (spiceText title description) "curry" then 1
       else 0) := rfl
  have hb3 : (jsIncludes (spiceText title description) "vindaloo" ||
      jsIncludes (spiceText title description) "extra spicy") = true ↔
      tier3Cond (spiceText title description) := by
    simp [tier3Cond, jsIncludes_iff]
  have hb2 : (jsIncludes (spiceText title description) "chilli" ||
      jsIncludes (spiceText title description) "spicy" ||
      jsIncludes (spiceText title description) "65") = true ↔
      tier2Cond (spiceText title description) := by
    simp [tier2Cond, jsIncludes_iff, or_assoc]
  have hb1 : (jsIncludes (spiceText title description) "masala" ||
      jsIncludes (spiceText title description) "tandoori" ||
      jsIncludes (spiceText title description) "curry") = true ↔
      tier1Cond (spiceText title description) := by
    simp [tier1Cond, jsIncludes_iff, or_assoc]
  by_cases h3 : (jsIncludes (spiceText title description) "vindaloo" ||
      jsIncludes (spiceText title description) "extra spicy") = true
  · rw [hdef, if_pos h3]
    refine ⟨by norm_num, ?_, ?_, ?_, ?_⟩ <;>
      simp only [exactTier2Cond, exactTier1Cond, tier0Cond, ← hb3, ← hb2, ← hb1] <;>
      simp [h3]
  · by_cases h2 : (jsIncludes (spiceText title description) "chilli" ||
        jsIncludes (spiceText title description) "spicy" ||
        jsIncludes (spiceText title description) "65") = true
    · rw [hdef, if_neg h3, if_pos h2]
      refine ⟨by norm_num, ?_, ?_, ?_, ?_⟩ <;>
        simp only [exactTier2Cond, exactTier1Cond, tier0Cond, ← hb3, ← hb2, ← hb1] <;>
        simp [h3, h2]
    · by_cases h1 : (jsIncludes (spiceText title description) "masala" ||
          jsIncludes (spiceText title description) "tandoori" ||
          jsIncludes (spiceText title description) "curry") = true
      · rw [hdef, if_neg h3, if_neg h2, if_pos h1]
        refine ⟨by norm_num, ?_, ?_, ?_, ?_⟩ <;>
          simp only [exactTier2Cond, exactTier1Cond, tier0Cond, ← hb3, ← hb2, ← hb1] <;>
          simp [h3, h2, h1]
      · rw [hdef, if_neg h3, if_neg h2, if_neg h1]
        refine ⟨by norm_num, ?_, ?_, ?_, ?_⟩ <;>
          simp only [exactTier2Cond, exactTier1Cond, tier0Cond, ← hb3, ← hb2, ← hb1] <;>
          simp [h3, h2, h1]

/-- C6 witness: the characterization applied at a title containing both
"Vindaloo" and "Masala"; the tier-3 clause then forces the value 3. -/
theorem c6_spiceLevel_characterization_witness :
    getSpiceLevel "Vindaloo Masala" "" ≤ 3 ∧
    (getSpiceLevel "Vindaloo Masala" "" = 3 ↔ tier3Cond (spiceText "Vindaloo Masala" "")) ∧
    (getSpiceLevel "Vindaloo Masala" "" = 2 ↔ exactTier2Cond (spiceText "Vindaloo Masala" "")) ∧
    (getSpiceLevel "Vindaloo Masala" "" = 1 ↔ exactTier1Cond (spiceText "Vindaloo Masala" "")) ∧
    (getSpiceLevel "Vindaloo Masala" "" = 0 ↔ tier0Cond (spiceText "Vindaloo Masala" "")) :=
  c6_spiceLevel_characterization "Vindaloo Masala" ""

/-- A raw item of the fetched `menu-data.json`: optional fields are absent
(`none`) or present. -/
structure RawItem where
  title : String
  description : Option String
  price : ℚ
  img : Option String

/-- A raw category group of the fetched data.  `items := none` models a
group whose `items` field is absent or not an array (the
`categoryGroup.items && Array.isArray(categoryGroup.items)` guard in
`loadMenuData` fails on it). -/
structure RawGroup where
  category : String
  items : Option (List RawItem)

/-- One flattened entry as pushed by `loadMenuData` for item `it` of a group
named `cat`, with running counter value `n`.  In the source,
`item.description || ''` and `item.img || ''` default absent (or empty)
fields to the empty string, while `getSpiceLevel(item.title, item.description)`
receives the raw field: when the field is absent, JavaScript string
concatenation turns `undefined` into the text "undefined". -/
def mkMenuItem (cat : String) (it : RawItem) (n : Nat) : MenuItem :=
  { id := n
    title := it.title
    description := it.description.getD ""
    price := it.price
    category := cat
    img := it.img.getD ""
    vegetarian := isVegetarian cat
    spicy := getSpiceLevel it.title
      (match it.description with
       | some d => d
       | none => "undefined") }

/-- The inner `forEach` of `loadMenuData`: flatten one group's items,
incrementing the id counter per item. -/
def buildItems (cat : String) : List RawItem → Nat → List MenuItem
  | [], _ => []
  | it :: its, n => mkMenuItem cat it n :: buildItems cat its (n + 1)

/-- The outer `forEach` of `loadMenuData`: valid groups are flattened in
order, groups with absent or malformed `items` are skipped; the id counter
carries across groups. -/
def flattenGroups : List RawGroup → Nat → List MenuItem
  | [], _ => []
  | g :: gs, n =>
    match g.items with
    | some its => buildItems g.category its n ++ flattenGroups gs (n + its.length)
    | none => flattenGroups gs n

/-- The flattening performed by `loadMenuData`: the id counter starts at 1. -/
def loadCatalog (raw : List RawGroup) : List MenuItem :=
  flattenGroups raw 1

/-- Sum of the item counts of the valid groups (groups whose `items` field
is present and is an array). -/
def validItemCount (raw : List RawGroup) : Nat :=
  (raw.map (fun g =>
    match g.items with
    | some its => its.length
    | none => 0)).sum

theorem buildItems_length (cat : String) (its : List RawItem) :
    ∀ n, (buildItems cat its n).length = its.length := by
  induction its with
  | nil => intro n; rfl
  | cons it its ih => intro n; simp [buildItems, ih]

theorem buildItems_ids (cat : String) (its : List RawItem) :
    ∀ n, (buildItems cat its n).map MenuItem.id = List.range' n its.length := by
  induction its with
  | nil => intro n; rfl
  | cons it its ih =>
    intro n
    simp [buildItems, mkMenuItem, List.range'_succ, ih]

theorem flattenGroups_length (raw : List RawGroup) :
    ∀ n, (flattenGroups raw n).length = validItemCount raw := by
  induction raw with
  | nil => intro n; rfl
  | cons g gs ih =>
    intro n
    cases hg : g.items with
    | none => simp [flattenGroups, hg, validItemCount, ih, List.map_cons]
    | some its =>
      simp only [flattenGroups, hg, List.length_append, buildItems_length,
        validItemCount, List.map_cons, List.sum_cons, ih]

theorem flattenGroups_ids (raw : List RawGroup) :
    ∀ n, (flattenGroups raw n).map MenuItem.id =
      List.range' n (validItemCount raw) := by
  induction raw with
  | nil => intro n; rfl
  | cons g gs ih =>
    intro n
    cases hg : g.items with
    | none =>
      simp only [flattenGroups, hg, validItemCount, List.map_cons, List.sum_cons]
      simp only [validItemCount] at ih
      simp [ih]
    | some its =>
      simp only [flattenGroups, hg, List.map_append, buildItems_ids,
        validItemCount, List.map_cons, List.sum_cons]
      simp only [validItemCount] at ih
      rw [ih (n + its.length)]
      have := List.range'_append n its.length
        ((gs.map (fun g => match g.items with | some its => its.length | none => 0)).sum) 1
      simp only [Nat.one_mul] at this
      exact this.trans (by rw [Nat.add_comm])

/-- C4: the flattened catalog's length is the sum of the valid groups' item
counts (groups with absent or malformed `items` are skipped), and the `id`
values are exactly the integers `1..N` assigned sequentially in input
order, with no gaps or repeats. -/
theorem c4_flatten_length_and_ids (raw : List RawGroup) :
    (loadCatalog raw).length = validItemCount raw ∧
    (loadCatalog raw).map MenuItem.id = List.range' 1 (validItemCount raw) := by
  exact ⟨flattenGroups_length raw 1, flattenGroups_ids raw 1⟩

/-- The current values of the five controls read by `applyFilters`:
`categoryFilter`, `dietaryFilter`, `spiceFilter`, `searchInput`,
`sortSelect`.  The spice selector's value is `none` for "all" and `some n`
for the numeral options (the source applies `parseInt` to the selected
numeral). -/
structure Criteria where
  category : String
  dietary : String
  spice : Option Nat
  searchText : String
  sort : String
deriving DecidableEq

/-- The controls' default values, as set by `resetFilters`. -/
def defaultCriteria : Criteria :=
  { category := "all", dietary := "all", spice := none,
    searchText := "", sort := "default" }

/-- The search predicate shared by `handleSearch` and the search stage of
`applyFilters`: the search term occurs in the lowercased title,
description, or category. -/
def matchesSearch (searchTerm : String) (item : MenuItem) : Bool :=
  jsIncludes (jsToLower item.title) searchTerm ||
  jsIncludes (jsToLower item.description) searchTerm ||
  jsIncludes (jsToLower item.category) searchTerm

/-- The normalization `applyFilters` and `handleSearch` apply to the search
box's value: `value.toLowerCase().trim()`. -/
def normalizeSearch (raw : String) : String :=
  jsTrim (jsToLower raw)

/-- Category stage of `applyFilters`: skipped when the selector reads
"all", otherwise exact equality on `item.category`. -/
def categoryStage (categoryFilter : String) (results : List MenuItem) : List MenuItem :=
  if categoryFilter ≠ "all" then
    results.filter (fun item => item.category == categoryFilter)
  else results

/-- Dietary stage of `applyFilters`: exact boolean match for the two
recognized selector values, otherwise skipped. -/
def dietaryStage (dietaryFilter : String) (results : List MenuItem) : List MenuItem :=
  if dietaryFilter = "vegetarian" then
    results.filter (fun item => item.vegetarian == true)
  else if dietaryFilter = "non-vegetarian" then
    results.filter (fun item => item.vegetarian == false)
  else results

/-- Spice stage of `applyFilters`: skipped for "all", otherwise exact
integer match on `item.spicy`. -/
def spiceStage (spiceFilter : Option Nat) (results : List MenuItem) : List MenuItem :=
  match spiceFilter with
  | none => results
  | some n => results.filter (fun item => item.spicy == n)

/-- Search stage of `applyFilters`: skipped when the normalized search text
is empty, otherwise keeps items satisfying `matchesSearch`. -/
def searchStage (searchInput : String) (results : List MenuItem) : List MenuItem :=
  if searchInput ≠ "" then results.filter (matchesSearch searchInput)
  else results

/-- The output of the category, dietary and spice stages of `applyFilters`
applied to the full catalog. -/
def preSearch (catalog : List MenuItem) (c : Criteria) : List MenuItem :=
  spiceStage c.spice (dietaryStage c.dietary (categoryStage c.category catalog))

/-- The `results` list computed by the four filter stages of `applyFilters`
(before the sort step). -/
def applyFiltersResults (catalog : List MenuItem) (c : Criteria) : List MenuItem :=
  searchStage (normalizeSearch c.searchText) (preSearch catalog c)

/-- Function `sortItems(items, sortType)` from `app.js`.  `Array.prototype.sort` is
stable per the ECMAScript specification, and a stable sort with respect to
the comparator's non-strict order has a unique output, modelled here by
insertion sort.  `localeCompare` is modelled as the lexicographic order on
the strings' character lists (true locale collation is
environment-dependent; this is the shallow model of it). -/
def sortItems (sortType : String) (items : List MenuItem) : List MenuItem :=
  if sortType = "price-low" then
    List.insertionSort (fun a b => a.price ≤ b.price) items
  else if sortType = "price-high" then
    List.insertionSort (fun a b => b.price ≤ a.price) items
  else if sortType = "name-az" then
    List.insertionSort (fun a b => a.title.data ≤ b.title.data) items
  else if sortType = "name-za" then
    List.insertionSort (fun a b => b.title.data ≤ a.title.data) items
  else items

/-- The full pipeline run by `applyFilters`: the four filter stages, then,
when the sort selector is not on "default", the in-place sort whose result
both reaches `filteredData` and is displayed. -/
def applyPipeline (catalog : List MenuItem) (c : Criteria) : List MenuItem :=
  let results := applyFiltersResults catalog c
  if c.sort ≠ "default" then sortItems c.sort results else results

/-- C3: the pipeline at the default criteria (category "all", dietary
"all", spice "all", empty search text, sort "default") returns the catalog
unchanged in content and order. -/
theorem c3_default_criteria_roundtrip (catalog : List MenuItem) :
    applyPipeline catalog defaultCriteria = catalog := by
  have hsearch : normalizeSearch "" = "" := rfl
  simp only [applyPipeline, applyFiltersResults, preSearch, defaultCriteria,
    hsearch, categoryStage, dietaryStage, spiceStage, searchStage]
  rw [if_neg (by decide), if_neg (by decide), if_neg (by decide),
    if_neg (by decide), if_neg (by decide)]

/-- C1: when the normalized search text is non-empty, the search stage of
`applyFilters` keeps exactly those items, from the output of the
category/dietary/spice stages applied to the full catalog, whose
lowercased title, description, or category contains the search text as a
substring (OR across the three fields). -/
theorem c1_search_stage (catalog : List MenuItem) (c : Criteria) (item : MenuItem)
    (h : normalizeSearch c.searchText ≠ "") :
    item ∈ applyFiltersResults catalog c ↔
      (item ∈ preSearch catalog c ∧
        ((normalizeSearch c.searchText).data <:+: (jsToLower item.title).data ∨
         (normalizeSearch c.searchText).data <:+: (jsToLower item.description).data ∨
         (normalizeSearch c.searchText).data <:+: (jsToLower item.category).data)) := by
  unfold applyFiltersResults searchStage
  rw [if_pos h, List.mem_filter]
  simp [matchesSearch, jsIncludes_iff, or_assoc]

/-- A curry item used to instantiate theorems on concrete inputs; its
title and category contain "Curry" while the search scenario's term is
lowercased before matching. -/
def curryCatalogItemA : MenuItem :=
  { id := 1, title := "Chicken Curry", description := "Tender chicken in sauce",
    price := 12, category := "Non-Veg Curries", img := "",
    vegetarian := false, spicy := 1 }

/-- A second concrete item that does not match the "curry" search. -/
def curryCatalogItemB : MenuItem :=
  { id := 2, title := "Plain Rice", description := "Steamed basmati",
    price := 4, category := "Rice & Biryani", img := "",
    vegetarian := true, spicy := 0 }

/-- Criteria for the "curry" search scenario: category "all", other
filters at defaults, raw search box text "Curry ". -/
def currySearchCriteria : Criteria :=
  { category := "all", dietary := "all", spice := none,
    searchText := "Curry ", sort := "default" }

/-- C1 witness: the search-stage characterization at the "curry" scenario
(category "all", search text "Curry "). -/
theorem c1_search_stage_witness :
    normalizeSearch currySearchCriteria.searchText ≠ "" ∧
    (curryCatalogItemA ∈
        applyFiltersResults [curryCatalogItemA, curryCatalogItemB] currySearchCriteria ↔
      (curryCatalogItemA ∈ preSearch [curryCatalogItemA, curryCatalogItemB] currySearchCriteria ∧
        ((normalizeSearch currySearchCriteria.searchText).data <:+:
            (jsToLower curryCatalogItemA.title).data ∨
         (normalizeSearch currySearchCriteria.searchText).data <:+:
            (jsToLower curryCatalogItemA.description).data ∨
         (normalizeSearch currySearchCriteria.searchText).data <:+:
            (jsToLower curryCatalogItemA.category).data))) :=
  ⟨by decide, c1_search_stage _ _ _ (by decide)⟩

/-- The script's module-level mutable state (`menuData`, `filteredData`),
the current control values, and the list last passed to
`displayMenuItems`. -/
structure AppState where
  menuData : List MenuItem
  filteredData : List MenuItem
  criteria : Criteria
  displayed : List MenuItem
deriving DecidableEq

/-- Handler `applyFilters()` as a state transformer: the four filter stages run on
`menuData`; `filteredData` is assigned the results, which (when the sort
selector is not "default") are then sorted in place by `sortItems` — the
sorted array is what both `filteredData` and the display end up holding. -/
def applyFiltersFn (s : AppState) : AppState :=
  let results := applyPipeline s.menuData s.criteria
  { s with filteredData := results, displayed := results }

/-- Handler `handleSearch(event)`: the box now holds `raw`; an empty normalized
term delegates to `applyFilters`, a non-empty one filters `filteredData`
and only updates the display. -/
def handleSearch (raw : String) (s : AppState) : AppState :=
  let s1 : AppState := { s with criteria := { s.criteria with searchText := raw } }
  if normalizeSearch raw = "" then applyFiltersFn s1
  else { s1 with displayed := s1.filteredData.filter (matchesSearch (normalizeSearch raw)) }

/-- Handler `handleSort(event)`: the selector now holds `v`; a copy of
`filteredData` is sorted by `sortItems` (which also writes it back to
`filteredData`) and displayed. -/
def handleSort (v : String) (s : AppState) : AppState :=
  let s1 : AppState := { s with criteria := { s.criteria with sort := v } }
  let itemsToSort := sortItems v s1.filteredData
  { s1 with filteredData := itemsToSort, displayed := itemsToSort }

/-- Handler `resetFilters()`: all controls back to defaults, `filteredData` reset
to a copy of `menuData`, full catalog displayed. -/
def resetFilters (s : AppState) : AppState :=
  { menuData := s.menuData, filteredData := s.menuData,
    criteria := defaultCriteria, displayed := s.menuData }

/-- User interactions wired up by `setupEventListeners` (plus the reset
button): changing a filter selector re-runs `applyFilters`, search input
runs the debounced `handleSearch`, the sort selector runs `handleSort`. -/
inductive Event
  | changeCategory (v : String)
  | changeDietary (v : String)
  | changeSpice (v : Option Nat)
  | inputSearch (raw : String)
  | changeSort (v : String)
  | reset

/-- One event-handler run. -/
def step : Event → AppState → AppState
  | .changeCategory v, s =>
    applyFiltersFn { s with criteria := { s.criteria with category := v } }
  | .changeDietary v, s =>
    applyFiltersFn { s with criteria := { s.criteria with dietary := v } }
  | .changeSpice v, s =>
    applyFiltersFn { s with criteria := { s.criteria with spice := v } }
  | .inputSearch raw, s => handleSearch raw s
  | .changeSort v, s => handleSort v s
  | .reset, s => resetFilters s

/-- The state right after a successful load and initial render. -/
def initState (catalog : List MenuItem) : AppState :=
  { menuData := catalog, filteredData := catalog,
    criteria := defaultCriteria, displayed := catalog }

/-- States reachable from a successful load of `catalog` by event-handler
runs. -/
inductive Reachable (catalog : List MenuItem) : AppState → Prop
  | init : Reachable catalog (initState catalog)
  | next (s : AppState) (e : Event) :
      Reachable catalog s → Reachable catalog (step e s)

/-- C10: a non-empty search leaves both stored variables (`menuData` and
`filteredData`) unchanged; it only computes and displays a result list. -/
theorem c10_search_frame (s : AppState) (raw : String)
    (h : normalizeSearch raw ≠ "") :
    (handleSearch raw s).menuData = s.menuData ∧
    (handleSearch raw s).filteredData = s.filteredData ∧
    (handleSearch raw s).displayed =
      s.filteredData.filter (matchesSearch (normalizeSearch raw)) := by
  simp only [handleSearch]
  rw [if_neg h]
  exact ⟨rfl, rfl, rfl⟩

/-- C10 witness: the frame property at a concrete state and the search
text "Rice". -/
theorem c10_search_frame_witness :
    normalizeSearch "Rice" ≠ "" ∧
    ((handleSearch "Rice" (initState [curryCatalogItemA, curryCatalogItemB])).menuData =
        (initState [curryCatalogItemA, curryCatalogItemB]).menuData ∧
     (handleSearch "Rice" (initState [curryCatalogItemA, curryCatalogItemB])).filteredData =
        (initState [curryCatalogItemA, curryCatalogItemB]).filteredData ∧
     (handleSearch "Rice" (initState [curryCatalogItemA, curryCatalogItemB])).displayed =
        (initState [curryCatalogItemA, curryCatalogItemB]).filteredData.filter
          (matchesSearch (normalizeSearch "Rice"))) :=
  ⟨by decide, c10_search_frame _ _ (by decide)⟩

theorem categoryStage_sublist (f : String) (l : List MenuItem) :
    (categoryStage f l).Sublist l := by
  unfold categoryStage
  split
  · exact List.filter_sublist l
  · exact List.Sublist.refl l

theorem dietaryStage_sublist (f : String) (l : List MenuItem) :
    (dietaryStage f l).Sublist l := by
  unfold dietaryStage
  split
  · exact List.filter_sublist l
  · split
    · exact List.filter_sublist l
    · exact List.Sublist.refl l

theorem spiceStage_sublist (f : Option Nat) (l : List MenuItem) :
    (spiceStage f l).Sublist l := by
  unfold spiceStage
  split
  · exact List.Sublist.refl l
  · exact List.filter_sublist l

theorem searchStage_sublist (f : String) (l : List MenuItem) :
    (searchStage f l).Sublist l := by
  unfold searchStage
  split
  · exact List.filter_sublist l
  · exact List.Sublist.refl l

theorem applyFiltersResults_sublist (catalog : List MenuItem) (c : Criteria) :
    (applyFiltersResults catalog c).Sublist catalog :=
  ((searchStage_sublist _ _).trans
    ((spiceStage_sublist _ _).trans (dietaryStage_sublist _ _))).trans
    (categoryStage_sublist _ _)

theorem sortItems_default (l : List MenuItem) : sortItems "default" l = l := by
  unfold sortItems
  rw [if_neg (by decide), if_neg (by decide), if_neg (by decide), if_neg (by decide)]

/-- Two items whose prices are out of order relative to their catalog
positions, so that `price-low` visibly reorders them. -/
def sortDemoA : MenuItem :=
  { id := 1, title := "Alpha", description := "", price := 2,
    category := "Extras", img := "", vegetarian := true, spicy := 0 }

/-- See `sortDemoA`. -/
def sortDemoB : MenuItem :=
  { id := 2, title := "Beta", description := "", price := 1,
    category := "Extras", img := "", vegetarian := true, spicy := 0 }

/-- C2 counterexample: sort by "price-low", then select "default".  The
reached state has sort criterion "default", yet `filteredData` is not a
subsequence of the catalog in original order: `handleSort` with "default"
hits the no-op branch of `sortItems` and keeps the previously sorted
order instead of restoring catalog order. -/
theorem c2_default_sort_counterexample :
    Reachable [sortDemoA, sortDemoB]
      (step (.changeSort "default")
        (step (.changeSort "price-low") (initState [sortDemoA, sortDemoB]))) ∧
    (step (.changeSort "default")
      (step (.changeSort "price-low") (initState [sortDemoA, sortDemoB]))).criteria.sort =
      "default" ∧
    ¬ (step (.changeSort "default")
        (step (.changeSort "price-low") (initState [sortDemoA, sortDemoB]))).filteredData.Sublist
      (step (.changeSort "default")
        (step (.changeSort "price-low") (initState [sortDemoA, sortDemoB]))).menuData :=
  ⟨Reachable.next _ _ (Reachable.next _ _ Reachable.init), by decide, by decide⟩

theorem sortItems_priceLow_sorted (l : List MenuItem) :
    List.Sorted (fun a b : MenuItem => a.price ≤ b.price) (sortItems "price-low" l) := by
  haveI : IsTotal MenuItem (fun a b => a.price ≤ b.price) :=
    ⟨fun a b => le_total a.price b.price⟩
  haveI : IsTrans MenuItem (fun a b => a.price ≤ b.price) :=
    ⟨fun _ _ _ hab hbc => le_trans hab hbc⟩
  unfold sortItems
  rw [if_pos rfl]
  exact List.sorted_insertionSort _ _

theorem sortItems_priceHigh_sorted (l : List MenuItem) :
    List.Sorted (fun a b : MenuItem => b.price ≤ a.price) (sortItems "price-high" l) := by
  haveI : IsTotal MenuItem (fun a b => b.price ≤ a.price) :=
    ⟨fun a b => le_total b.price a.price⟩
  haveI : IsTrans MenuItem (fun a b => b.price ≤ a.price) :=
    ⟨fun _ _ _ hab hbc => le_trans hbc hab⟩
  unfold sortItems
  rw [if_neg (by decide), if_pos rfl]
  exact List.sorted_insertionSort _ _

theorem sortItems_nameAz_sorted (l : List MenuItem) :
    List.Sorted (fun a b : MenuItem => a.title.data ≤ b.title.data)
      (sortItems "name-az" l) := by
  haveI : IsTotal MenuItem (fun a b => a.title.data ≤ b.title.data) :=
    ⟨fun a b => le_total a.title.data b.title.data⟩
  haveI : IsTrans MenuItem (fun a b => a.title.data ≤ b.title.data) :=
    ⟨fun _ _ _ hab hbc => le_trans hab hbc⟩
  unfold sortItems
  rw [if_neg (by decide), if_neg (by decide), if_pos rfl]
  exact List.sorted_insertionSort _ _

theorem sortItems_nameZa_sorted (l : List MenuItem) :
    List.Sorted (fun a b : MenuItem => b.title.data ≤ a.title.data)
      (sortItems "name-za" l) := by
  haveI : IsTotal MenuItem (fun a b => b.title.data ≤ a.title.data) :=
    ⟨fun a b => le_total b.title.data a.title.data⟩
  haveI : IsTrans MenuItem (fun a b => b.title.data ≤ a.title.data) :=
    ⟨fun _ _ _ hab hbc => le_trans hbc hab⟩
  unfold sortItems
  rw [if_neg (by decide), if_neg (by decide), if_neg (by decide), if_pos rfl]
  exact List.sorted_insertionSort _ _

/-- C2 as amended: (i) a pipeline recomputation (`applyFilters`) under sort
criterion "default" yields a `filteredData` that is a subsequence of the
catalog in original relative order; (ii) selecting "default" in
`handleSort` leaves `filteredData` exactly as it was — it does not restore
catalog order after a prior sort; (iii) when a sort is active, the
ResultSet order follows the sort comparator: under each of the four sort
criteria a pipeline recomputation leaves `filteredData` sorted by the
corresponding comparator, and so does selecting that criterion in
`handleSort` from any state. -/
theorem c2_default_sort_amended (s t u v w : AppState)
    (hs : s.criteria.sort = "default") (ht : t.criteria.sort = "price-low")
    (hu : u.criteria.sort = "price-high") (hv : v.criteria.sort = "name-az")
    (hw : w.criteria.sort = "name-za") :
    (applyFiltersFn s).filteredData.Sublist s.menuData ∧
    (step (.changeSort "default") s).filteredData = s.filteredData ∧
    List.Sorted (fun a b : MenuItem => a.price ≤ b.price)
      (applyFiltersFn t).filteredData ∧
    List.Sorted (fun a b : MenuItem => b.price ≤ a.price)
      (applyFiltersFn u).filteredData ∧
    List.Sorted (fun a b : MenuItem => a.title.data ≤ b.title.data)
      (applyFiltersFn v).filteredData ∧
    List.Sorted (fun a b : MenuItem => b.title.data ≤ a.title.data)
      (applyFiltersFn w).filteredData ∧
    List.Sorted (fun a b : MenuItem => a.price ≤ b.price)
      (step (.changeSort "price-low") s).filteredData ∧
    List.Sorted (fun a b : MenuItem => b.price ≤ a.price)
      (step (.changeSort "price-high") s).filteredData ∧
    List.Sorted (fun a b : MenuItem => a.title.data ≤ b.title.data)
      (step (.changeSort "name-az") s).filteredData ∧
    List.Sorted (fun a b : MenuItem => b.title.data ≤ a.title.data)
      (step (.changeSort "name-za") s).filteredData := by
  refine ⟨?_, ?_, ?_, ?_, ?_, ?_, ?_, ?_, ?_, ?_⟩
  · have hfd : (applyFiltersFn s).filteredData = applyPipeline s.menuData s.criteria := rfl
    rw [hfd]
    unfold applyPipeline
    rw [hs, if_neg (by simp)]
    exact applyFiltersResults_sublist s.menuData s.criteria
  · show (handleSort "default" s).filteredData = s.filteredData
    simp only [handleSort]
    exact sortItems_default s.filteredData
  · have hfd : (applyFiltersFn t).filteredData = applyPipeline t.menuData t.criteria := rfl
    rw [hfd]
    unfold applyPipeline
    rw [ht, if_pos (by simp)]
    exact sortItems_priceLow_sorted _
  · have hfd : (applyFiltersFn u).filteredData = applyPipeline u.menuData u.criteria := rfl
    rw [hfd]
    unfold applyPipeline
    rw [hu, if_pos (by simp)]
    exact sortItems_priceHigh_sorted _
  · have hfd : (applyFiltersFn v).filteredData = applyPipeline v.menuData v.criteria := rfl
    rw [hfd]
    unfold applyPipeline
    rw [hv, if_pos (by simp)]
    exact sortItems_nameAz_sorted _
  · have hfd : (applyFiltersFn w).filteredData = applyPipeline w.menuData w.criteria := rfl
    rw [hfd]
    unfold applyPipeline
    rw [hw, if_pos (by simp)]
    exact sortItems_nameZa_sorted _
  · exact sortItems_priceLow_sorted s.filteredData
  · exact sortItems_priceHigh_sorted s.filteredData
  · exact sortItems_nameAz_sorted s.filteredData
  · exact sortItems_nameZa_sorted s.filteredData

/-- The initial state over the two-item demo catalog, from which the
witness reaches states holding each of the four sort criteria. -/
def sortDemoInit : AppState :=
  initState [sortDemoA, sortDemoB]

/-- C2 amended witness: the amended statement at the initial demo state
(sort "default") and at the four states reached by selecting each sort
criterion there. -/
theorem c2_default_sort_amended_witness :
    sortDemoInit.criteria.sort = "default" ∧
    (step (.changeSort "price-low") sortDemoInit).criteria.sort = "price-low" ∧
    (step (.changeSort "price-high") sortDemoInit).criteria.sort = "price-high" ∧
    (step (.changeSort "name-az") sortDemoInit).criteria.sort = "name-az" ∧
    (step (.changeSort "name-za") sortDemoInit).criteria.sort = "name-za" ∧
    ((applyFiltersFn sortDemoInit).filteredData.Sublist sortDemoInit.menuData ∧
     (step (.changeSort "default") sortDemoInit).filteredData =
        sortDemoInit.filteredData ∧
     List.Sorted (fun a b : MenuItem => a.price ≤ b.price)
       (applyFiltersFn (step (.changeSort "price-low") sortDemoInit)).filteredData ∧
     List.Sorted (fun a b : MenuItem => b.price ≤ a.price)
       (applyFiltersFn (step (.changeSort "price-high") sortDemoInit)).filteredData ∧
     List.Sorted (fun a b : MenuItem => a.title.data ≤ b.title.data)
       (applyFiltersFn (step (.changeSort "name-az") sortDemoInit)).filteredData ∧
     List.Sorted (fun a b : MenuItem => b.title.data ≤ a.title.data)
       (applyFiltersFn (step (.changeSort "name-za") sortDemoInit)).filteredData ∧
     List.Sorted (fun a b : MenuItem => a.price ≤ b.price)
       (step (.changeSort "price-low") sortDemoInit).filteredData ∧
     List.Sorted (fun a b : MenuItem => b.price ≤ a.price)
       (step (.changeSort "price-high") sortDemoInit).filteredData ∧
     List.Sorted (fun a b : MenuItem => a.title.data ≤ b.title.data)
       (step (.changeSort "name-az") sortDemoInit).filteredData ∧
     List.Sorted (fun a b : MenuItem => b.title.data ≤ a.title.data)
       (step (.changeSort "name-za") sortDemoInit).filteredData) :=
  ⟨by decide, by decide, by decide, by decide, by decide,
    c2_default_sort_amended _ _ _ _ _
      (by decide) (by decide) (by decide) (by decide) (by decide)⟩

/-- Names for the four filter stages of `applyFilters`. -/
inductive StageTag
  | category
  | dietary
  | spice
  | search
deriving DecidableEq

/-- The membership predicate each stage of `applyFilters` keeps (a stage
whose selector is at its "all"/empty value keeps everything). -/
def stagePred (t : StageTag) (c : Criteria) (item : MenuItem) : Bool :=
  match t with
  | .category => if c.category ≠ "all" then item.category == c.category else true
  | .dietary =>
    if c.dietary = "vegetarian" then item.vegetarian == true
    else if c.dietary = "non-vegetarian" then item.vegetarian == false
    else true
  | .spice =>
    match c.spice with
    | none => true
    | some n => item.spicy == n
  | .search =>
    if normalizeSearch c.searchText ≠ "" then
      matchesSearch (normalizeSearch c.searchText) item
    else true

/-- Run one named stage of `applyFilters`. -/
def runStage (t : StageTag) (c : Criteria) (l : List MenuItem) : List MenuItem :=
  match t with
  | .category => categoryStage c.category l
  | .dietary => dietaryStage c.dietary l
  | .spice => spiceStage c.spice l
  | .search => searchStage (normalizeSearch c.searchText) l

/-- The order in which `applyFilters` applies the stages. -/
def stdStageOrder : List StageTag :=
  [.category, .dietary, .spice, .search]

/-- Run the stages in the given order. -/
def runStages (order : List StageTag) (c : Criteria) (catalog : List MenuItem) :
    List MenuItem :=
  order.foldl (fun acc t => runStage t c acc) catalog

theorem runStage_eq_filter (t : StageTag) (c : Criteria) (l : List MenuItem) :
    runStage t c l = l.filter (stagePred t c) := by
  cases t with
  | category =>
    by_cases h : c.category ≠ "all"
    · simp only [runStage, categoryStage, if_pos h]
      exact List.filter_congr (fun x _ => by simp [stagePred, h])
    · simp only [runStage, categoryStage, if_neg h]
      exact (List.filter_eq_self.mpr (fun a _ => by simp [stagePred, h])).symm
  | dietary =>
    by_cases h1 : c.dietary = "vegetarian"
    · simp only [runStage, dietaryStage, if_pos h1]
      exact List.filter_congr (fun x _ => by simp [stagePred, h1])
    · by_cases h2 : c.dietary = "non-vegetarian"
      · simp only [runStage, dietaryStage, if_neg h1, if_pos h2]
        exact List.filter_congr (fun x _ => by simp [stagePred, h1, h2])
      · simp only [runStage, dietaryStage, if_neg h1, if_neg h2]
        exact (List.filter_eq_self.mpr (fun a _ => by simp [stagePred, h1, h2])).symm
  | spice =>
    cases hs : c.spice with
    | none =>
      simp only [runStage, spiceStage, hs]
      exact (List.filter_eq_self.mpr (fun a _ => by simp [stagePred, hs])).symm
    | some n =>
      simp only [runStage, spiceStage, hs]
      exact List.filter_congr (fun x _ => by simp [stagePred, hs])
  | search =>
    by_cases h : normalizeSearch c.searchText ≠ ""
    · simp only [runStage, searchStage, if_pos h]
      exact List.filter_congr (fun x _ => by simp [stagePred, h])
    · simp only [runStage, searchStage, if_neg h]
      exact (List.filter_eq_self.mpr (fun a _ => by simp [stagePred, h])).symm

theorem runStages_eq_filter (order : List StageTag) (c : Criteria) :
    ∀ catalog, runStages order c catalog =
      catalog.filter (fun item => order.all (fun t => stagePred t c item)) := by
  induction order with
  | nil => intro catalog; simp [runStages]
  | cons t ts ih =>
    intro catalog
    have hstep : runStages (t :: ts) c catalog = runStages ts c (runStage t c catalog) := rfl
    rw [hstep, ih, runStage_eq_filter, List.filter_filter]
    congr 1
    funext item
    simp [List.all_cons, Bool.and_comm]

theorem list_all_perm {α : Type} {l₁ l₂ : List α} (h : l₁.Perm l₂) (f : α → Bool) :
    l₁.all f = l₂.all f := by
  have h1 : l₁.all f = true ↔ l₂.all f = true := by
    simp only [List.all_eq_true]
    constructor
    · intro ha x hx
      exact ha x (h.mem_iff.mpr hx)
    · intro ha x hx
      exact ha x (h.mem_iff.mp hx)
  cases ha : l₁.all f
  · cases hb : l₂.all f
    · rfl
    · exact absurd (h1.mpr hb) (by simp [ha])
  · exact (h1.mp ha).symm

/-- C7: running the four filter stages in any permutation of their order
produces the same result list as the fixed order of `applyFilters` — in
particular the same id-set (pure intersection semantics); the fixed order
is the `applyFilters` result. -/
theorem c7_stage_permutation (catalog : List MenuItem) (c : Criteria)
    (order : List StageTag) (h : order.Perm stdStageOrder) :
    runStages order c catalog = runStages stdStageOrder c catalog ∧
    runStages stdStageOrder c catalog = applyFiltersResults catalog c ∧
    ((runStages order c catalog).map MenuItem.id).toFinset =
      ((runStages stdStageOrder c catalog).map MenuItem.id).toFinset := by
  have he : runStages order c catalog = runStages stdStageOrder c catalog := by
    rw [runStages_eq_filter, runStages_eq_filter]
    congr 1
    funext item
    exact list_all_perm h _
  exact ⟨he, rfl, by rw [he]⟩

/-- C7 witness: the reversed stage order at a concrete catalog and the
"curry" criteria. -/
theorem c7_stage_permutation_witness :
    ([StageTag.search, .spice, .dietary, .category] : List StageTag).Perm stdStageOrder ∧
    (runStages [StageTag.search, .spice, .dietary, .category] currySearchCriteria
        [curryCatalogItemA, curryCatalogItemB] =
      runStages stdStageOrder currySearchCriteria [curryCatalogItemA, curryCatalogItemB] ∧
     runStages stdStageOrder currySearchCriteria [curryCatalogItemA, curryCatalogItemB] =
      applyFiltersResults [curryCatalogItemA, curryCatalogItemB] currySearchCriteria ∧
     ((runStages [StageTag.search, .spice, .dietary, .category] currySearchCriteria
         [curryCatalogItemA, curryCatalogItemB]).map MenuItem.id).toFinset =
      ((runStages stdStageOrder currySearchCriteria
         [curryCatalogItemA, curryCatalogItemB]).map MenuItem.id).toFinset) :=
  ⟨by decide, c7_stage_permutation _ _ _ (by decide)⟩

/-- The parsed JSON body of the fetched resource: either an array of
category groups (on which `data.forEach` iterates), or some other JSON
value, on which `data.forEach` throws. -/
inductive JsonData
  | groups (gs : List RawGroup)
  | notArray

/-- How the `fetch('menu-data.json')` + `response.json()` prelude of
`loadMenuData` can go: the network fails, the response is not ok, the body
is not parseable JSON, or a JSON value is produced. -/
inductive FetchOutcome
  | networkError
  | notOk
  | parseError
  | ok (d : JsonData)

/-- The module-level variables `loadMenuData` touches. -/
structure Globals where
  menuData : List MenuItem
  filteredData : List MenuItem
deriving DecidableEq

/-- The single error kind `loadMenuData` propagates (rethrown to the
`DOMContentLoaded` handler). -/
inductive LoadError
  | loadError
deriving DecidableEq

/-- Function `loadMenuData()` as a function of the previous globals and the fetch
outcome, returning the new globals and the propagated error, if any.
The three prelude failures throw before any assignment, leaving the
globals untouched.  When a JSON value is produced, the source assigns
`menuData = []` first; if the value is not an array, `data.forEach` then
throws — after the old catalog has already been cleared, and without
touching `filteredData`.  On an array of groups the flattening runs to
completion and `filteredData` becomes a copy of the new catalog. -/
def loadMenuData (g : Globals) (f : FetchOutcome) : Globals × Option LoadError :=
  match f with
  | .networkError => (g, some .loadError)
  | .notOk => (g, some .loadError)
  | .parseError => (g, some .loadError)
  | .ok .notArray => ({ g with menuData := [] }, some .loadError)
  | .ok (.groups gs) =>
    let catalog := loadCatalog gs
    ({ menuData := catalog, filteredData := catalog }, none)

/-- What the render surface shows after initialization: the grouped menu
for a catalog, or the single error message `showError` injects in place of
the menu grid. -/
inductive Display
  | menu (items : List MenuItem)
  | errorMessage (msg : String)
deriving DecidableEq

/-- The `DOMContentLoaded` handler: awaits `loadMenuData`, then renders the
catalog; any error is caught and turned into the single user-visible
message. -/
def initApp (g : Globals) (f : FetchOutcome) : Globals × Display :=
  match loadMenuData g f with
  | (g1, some _) =>
    (g1, Display.errorMessage "Failed to load menu data. Please refresh the page.")
  | (g1, none) => (g1, Display.menu g1.menuData)

/-- C8 counterexample: when the fetched body parses as JSON but is not an
array of groups, the load fails *after* `menuData = []` has executed: a
previously held non-empty catalog is not left untouched. -/
theorem c8_load_counterexample :
    (loadMenuData { menuData := [curryCatalogItemA], filteredData := [curryCatalogItemA] }
        (.ok .notArray)).2.isSome = true ∧
    (loadMenuData { menuData := [curryCatalogItemA], filteredData := [curryCatalogItemA] }
        (.ok .notArray)).1.menuData ≠ [curryCatalogItemA] := by
  exact ⟨rfl, by decide⟩

/-- C8 as amended: the load is atomic on the prelude failures (network
error, non-ok response, unparseable body) — globals untouched; on a parsed
body that is not an array of groups the error still propagates, but
`menuData` has already been reset to empty (`filteredData` untouched).  In
every failure case the app shows the single error message in place of the
menu grid, and on success the display is the full flattened catalog — a
partial catalog is never rendered. -/
theorem c8_load_amended (g : Globals) (gs : List RawGroup) :
    loadMenuData g .networkError = (g, some .loadError) ∧
    loadMenuData g .notOk = (g, some .loadError) ∧
    loadMenuData g .parseError = (g, some .loadError) ∧
    loadMenuData g (.ok .notArray) = ({ g with menuData := [] }, some .loadError) ∧
    initApp g .networkError =
      (g, Display.errorMessage "Failed to load menu data. Please refresh the page.") ∧
    initApp g .notOk =
      (g, Display.errorMessage "Failed to load menu data. Please refresh the page.") ∧
    initApp g .parseError =
      (g, Display.errorMessage "Failed to load menu data. Please refresh the page.") ∧
    initApp g (.ok .notArray) =
      ({ g with menuData := [] },
        Display.errorMessage "Failed to load menu data. Please refresh the page.") ∧
    initApp g (.ok (.groups gs)) =
      ({ menuData := loadCatalog gs, filteredData := loadCatalog gs },
        Display.menu (loadCatalog gs)) :=
  ⟨rfl, rfl, rfl, rfl, rfl, rfl, rfl, rfl, rfl⟩

/-- A rendered category section's bounding rectangle in viewport
coordinates, as read from `getBoundingClientRect()` (its bottom edge is
`top + height`). -/
structure Rect where
  top : ℚ
  height : ℚ
deriving DecidableEq

/-- The quantity `rect.top + rect.height / 2` from the tracking loop. -/
def sectionMiddle (r : Rect) : ℚ :=
  r.top + r.height / 2

/-- The candidacy test of the tracking loop:
`rect.top < window.innerHeight && rect.bottom > 0`, i.e. the section's
vertical extent intersects the viewport of height `h`. -/
def candB (h : ℚ) (r : Rect) : Bool :=
  decide (r.top < h) && decide (0 < r.top + r.height)

/-- The quantity `Math.abs(sectionMiddle - viewportMiddle)` from the tracking loop. -/
def distC (h : ℚ) (r : Rect) : ℚ :=
  |sectionMiddle r - h / 2|

/-- The test `distance < closestDistance`, where `closestDistance` starts at
`Infinity` (modelled by `none`). -/
def beats (d : ℚ) : Option ℚ → Bool
  | none => true
  | some c => decide (d < c)

theorem beats_some_iff (d c : ℚ) : beats d (some c) = true ↔ d < c := by
  simp [beats]

/-- The `categorySections.forEach` loop of
`setupLiquidGlassScrollTracking`: `idx` is the absolute index of the first
remaining section, `closest` the running `closestDistance`, `acc` the
running `activeIndex`. -/
def scanActive (h : ℚ) : List Rect → Nat → Option ℚ → Nat → Nat
  | [], _, _, acc => acc
  | r :: rs, idx, closest, acc =>
    if beats (distC h r) closest && candB h r then
      scanActive h rs (idx + 1) (some (distC h r)) idx
    else
      scanActive h rs (idx + 1) closest acc

/-- The `activeIndex` computed by the scroll handler for viewport height
`h` and the rendered sections' rectangles (initial state: index 0,
`closestDistance = Infinity`). -/
def activeIndexOf (h : ℚ) (rects : List Rect) : Nat :=
  scanActive h rects 0 none 0

/-- The rectangle at position `k` (a degenerate rectangle out of range). -/
def rectAt (rects : List Rect) (k : Nat) : Rect :=
  rects.getD k { top := 0, height := 0 }

theorem scanActive_no_trigger (h : ℚ) (rs : List Rect) :
    ∀ (idx acc : Nat) (closest : Option ℚ),
    (∀ k, k < rs.length →
      (beats (distC h (rectAt rs k)) closest && candB h (rectAt rs k)) = false) →
    scanActive h rs idx closest acc = acc := by
  induction rs with
  | nil => intro idx acc closest _; rfl
  | cons r rs ih =>
    intro idx acc closest hall
    have h0 : (beats (distC h r) closest && candB h r) = false :=
      hall 0 (Nat.succ_pos _)
    simp only [scanActive]
    rw [if_neg (by simp [h0])]
    exact ih (idx + 1) acc closest (fun k hk => hall (k + 1) (Nat.succ_lt_succ hk))

theorem scanActive_trigger (h : ℚ) (rs : List Rect) :
    ∀ (idx acc : Nat) (closest : Option ℚ),
    (∃ k, k < rs.length ∧
      (beats (distC h (rectAt rs k)) closest && candB h (rectAt rs k)) = true) →
    ∃ k, k < rs.length ∧ scanActive h rs idx closest acc = idx + k ∧
      candB h (rectAt rs k) = true ∧
      beats (distC h (rectAt rs k)) closest = true ∧
      (∀ j, j < rs.length → candB h (rectAt rs j) = true →
        distC h (rectAt rs k) ≤ distC h (rectAt rs j)) ∧
      (∀ j, j < k → candB h (rectAt rs j) = true →
        distC h (rectAt rs k) < distC h (rectAt rs j)) := by
  induction rs with
  | nil =>
    rintro idx acc closest ⟨k, hk, -⟩
    exact absurd hk (Nat.not_lt_zero k)
  | cons r rs ih =>
    intro idx acc closest hex
    by_cases hc : (beats (distC h r) closest && candB h r) = true
    · have hc' := hc
      rw [Bool.and_eq_true] at hc'
      obtain ⟨hbr, hcr⟩ := hc'
      simp only [scanActive]
      rw [if_pos (by simp [hc])]
      by_cases h2 : ∃ k, k < rs.length ∧
          (beats (distC h (rectAt rs k)) (some (distC h r)) && candB h (rectAt rs k)) = true
      · obtain ⟨k', hk', hres, hck', hbk', hmin', hstrict'⟩ :=
          ih (idx + 1) idx (some (distC h r)) h2
        have hlt : distC h (rectAt rs k') < distC h r := (beats_some_iff _ _).mp hbk'
        refine ⟨k' + 1, Nat.succ_lt_succ hk', ?_, hck', ?_, ?_, ?_⟩
        · rw [hres]; omega
        · show beats (distC h (rectAt rs k')) closest = true
          cases closest with
          | none => rfl
          | some c =>
            have hrc : distC h r < c := (beats_some_iff _ _).mp hbr
            exact (beats_some_iff _ _).mpr (lt_trans hlt hrc)
        · intro j hj hcj
          cases j with
          | zero => exact le_of_lt hlt
          | succ j' => exact hmin' j' (Nat.lt_of_succ_lt_succ hj) hcj
        · intro j hj hcj
          cases j with
          | zero => exact hlt
          | succ j' => exact hstrict' j' (Nat.lt_of_succ_lt_succ hj) hcj
      · push_neg at h2
        have hnone : ∀ k, k < rs.length →
            (beats (distC h (rectAt rs k)) (some (distC h r)) && candB h (rectAt rs k)) = false :=
          fun k hk => by simpa using h2 k hk
        rw [scanActive_no_trigger h rs (idx + 1) idx (some (distC h r)) hnone]
        refine ⟨0, Nat.succ_pos _, (Nat.add_zero idx).symm, hcr, hbr, ?_, ?_⟩
        · intro j hj hcj
          cases j with
          | zero => exact le_refl _
          | succ j' =>
            show distC h r ≤ distC h (rectAt rs j')
            have hkf : (beats (distC h (rectAt rs j')) (some (distC h r)) &&
                candB h (rectAt rs j')) = false := hnone j' (Nat.lt_of_succ_lt_succ hj)
            have hcj' : candB h (rectAt rs j') = true := hcj
            have hb : beats (distC h (rectAt rs j')) (some (distC h r)) = false := by
              cases hbo : beats (distC h (rectAt rs j')) (some (distC h r))
              · rfl
              · rw [hbo, hcj'] at hkf
                simp at hkf
            have hnlt : ¬ (distC h (rectAt rs j') < distC h r) := by
              rw [← beats_some_iff (distC h (rectAt rs j')) (distC h r), hb]
              simp
            exact le_of_not_lt hnlt
        · intro j hj
          exact absurd hj (Nat.not_lt_zero j)
    · simp only [scanActive]
      rw [if_neg hc]
      obtain ⟨k0, hk0, ht0⟩ := hex
      have hex' : ∃ k, k < rs.length ∧
          (beats (distC h (rectAt rs k)) closest && candB h (rectAt rs k)) = true := by
        cases k0 with
        | zero => exact absurd ht0 hc
        | succ k1 => exact ⟨k1, Nat.lt_of_succ_lt_succ hk0, ht0⟩
      obtain ⟨k', hk', hres, hck', hbk', hmin', hstrict'⟩ := ih (idx + 1) acc closest hex'
      have hj0 : candB h r = true → distC h (rectAt rs k') < distC h r := by
        intro hcj
        have hbf : beats (distC h r) closest = false := by
          cases hbo : beats (distC h r) closest
          · rfl
          · exact absurd (by rw [Bool.and_eq_true]; exact ⟨hbo, hcj⟩) hc
        cases hcl : closest with
        | none =>
          rw [hcl] at hbf
          simp [beats] at hbf
        | some cc =>
          rw [hcl] at hbf hbk'
          have h1 : ¬ (distC h r < cc) := by
            rw [← beats_some_iff (distC h r) cc, hbf]
            simp
          have h2 : distC h (rectAt rs k') < cc := (beats_some_iff _ _).mp hbk'
          exact lt_of_lt_of_le h2 (le_of_not_lt h1)
      refine ⟨k' + 1, Nat.succ_lt_succ hk', ?_, hck', hbk', ?_, ?_⟩
      · rw [hres]; omega
      · intro j hj hcj
        cases j with
        | zero => exact le_of_lt (hj0 hcj)
        | succ j' => exact hmin' j' (Nat.lt_of_succ_lt_succ hj) hcj
      · intro j hj hcj
        cases j with
        | zero => exact hj0 hcj
        | succ j' => exact hstrict' j' (Nat.lt_of_succ_lt_succ hj) hcj

/-- First section of the tied two-section layout: extent 30..50, center 40. -/
def tieRectA : Rect :=
  { top := 30, height := 20 }

/-- Second section of the tied layout: extent 50..70, center 60. -/
def tieRectB : Rect :=
  { top := 50, height := 20 }

/-- The tied layout, with viewport height 100 (viewport center 50). -/
def tieRects : List Rect :=
  [tieRectA, tieRectB]

theorem tieRectA_cand : candB 100 tieRectA = true := by
  simp only [candB, tieRectA, Bool.and_eq_true, decide_eq_true_eq]
  refine ⟨by norm_num, by norm_num⟩

theorem tieRectB_cand : candB 100 tieRectB = true := by
  simp only [candB, tieRectB, Bool.and_eq_true, decide_eq_true_eq]
  refine ⟨by norm_num, by norm_num⟩

theorem tieRectA_dist : distC 100 tieRectA = 10 := by
  simp only [distC, sectionMiddle, tieRectA]
  have h : (30 : ℚ) + 20 / 2 - 100 / 2 = -10 := by norm_num
  rw [h, abs_neg]
  exact abs_of_nonneg (by norm_num)

theorem tieRectB_dist : distC 100 tieRectB = 10 := by
  simp only [distC, sectionMiddle, tieRectB]
  have h : (50 : ℚ) + 20 / 2 - 100 / 2 = 10 := by norm_num
  rw [h]
  exact abs_of_nonneg (by norm_num)

theorem tie_activeIndex : activeIndexOf 100 tieRects = 0 := by
  have hcond1 : (beats (distC 100 tieRectA) none && candB 100 tieRectA) = true := by
    simp [beats, tieRectA_cand]
  have hcond2 : (beats (distC 100 tieRectB) (some (distC 100 tieRectA)) &&
      candB 100 tieRectB) = false := by
    rw [tieRectA_dist, tieRectB_dist]
    simp [beats]
  show scanActive 100 [tieRectA, tieRectB] 0 none 0 = 0
  simp only [scanActive]
  rw [if_pos (by simp [hcond1]), if_neg (by simp [hcond2])]

/-- C9 counterexample: with viewport height 100, two candidate sections
whose centers (40 and 60) are exactly equidistant from the viewport
center (50); the loop selects index 0 — the tie goes to the group
iterated *first* in DOM order (an update requires a strictly smaller
distance), not the one iterated last as the claim states. -/
theorem c9_active_counterexample :
    candB 100 tieRectA = true ∧
    candB 100 tieRectB = true ∧
    distC 100 tieRectA = distC 100 tieRectB ∧
    activeIndexOf 100 tieRects = 0 ∧
    activeIndexOf 100 tieRects ≠ 1 :=
  ⟨tieRectA_cand, tieRectB_cand,
    by rw [tieRectA_dist, tieRectB_dist],
    tie_activeIndex,
    by rw [tie_activeIndex]; exact Nat.zero_ne_one⟩

/-- C9 as amended: whenever some rendered group intersects the viewport,
the reported active group is a candidate whose center-to-viewport-center
distance is minimal among all candidates, and on exact ties the candidate
iterated *first* in DOM order wins (every earlier candidate is strictly
farther away). -/
theorem c9_active_amended (h : ℚ) (rects : List Rect)
    (hex : ∃ k, k < rects.length ∧ candB h (rectAt rects k) = true) :
    ∃ k, k < rects.length ∧ activeIndexOf h rects = k ∧
      candB h (rectAt rects k) = true ∧
      (∀ j, j < rects.length → candB h (rectAt rects j) = true →
        distC h (rectAt rects k) ≤ distC h (rectAt rects j)) ∧
      (∀ j, j < k → candB h (rectAt rects j) = true →
        distC h (rectAt rects k) < distC h (rectAt rects j)) := by
  obtain ⟨k0, hk0, hcand⟩ := hex
  have htrig : ∃ k, k < rects.length ∧
      (beats (distC h (rectAt rects k)) none && candB h (rectAt rects k)) = true :=
    ⟨k0, hk0, by simp [beats, hcand]⟩
  obtain ⟨k, hk, hres, hc, -, hmin, hstrict⟩ := scanActive_trigger h rects 0 0 none htrig
  refine ⟨k, hk, ?_, hc, hmin, hstrict⟩
  show scanActive h rects 0 none 0 = k
  rw [hres, Nat.zero_add]

/-- C9 amended witness: the amended selection rule at the tied layout of
the counterexample (both sections are candidates and equidistant — the
theorem then forces the first index). -/
theorem c9_active_amended_witness :
    (∃ k, k < tieRects.length ∧ candB 100 (rectAt tieRects k) = true) ∧
    (∃ k, k < tieRects.length ∧ activeIndexOf 100 tieRects = k ∧
      candB 100 (rectAt tieRects k) = true ∧
      (∀ j, j < tieRects.length → candB 100 (rectAt tieRects j) = true →
        distC 100 (rectAt tieRects k) ≤ distC 100 (rectAt tieRects j)) ∧
      (∀ j, j < k → candB 100 (rectAt tieRects j) = true →
        distC 100 (rectAt tieRects k) < distC 100 (rectAt tieRects j))) :=
  ⟨⟨0, Nat.succ_pos 1, tieRectA_cand⟩,
    c9_active_amended 100 tieRects ⟨0, Nat.succ_pos 1, tieRectA_cand⟩⟩
